import Mathlib

/-
Shallow embedding of redthonic.py: a thin Pythonic wrapper over a Redis
connection, exposing string, list and set values through native container
semantics.  Remote behaviour of the store (the redis client collaborator)
is modelled from its documented command semantics; the wrapper logic is
translated line by line from the source.
-/

/-- Python exception outcomes raised by the wrapper code paths. -/
inductive PyErr where
  | attributeError (cls attr : String)
  | indexError
  | keyError (value : String)
deriving DecidableEq

/-- Remote store connection, as the wrapper observes it: the flag the remote
returns for RENAME (left abstract, since the wrapper only threads it through),
and the set of keys currently existing remotely (which determines the RENAMENX
flag: it fails exactly when the destination key already exists). -/
structure Db where
  renameFlag : String → String → Bool
  existingKeys : List String

/-- RENAMENX flag reported by the remote: false when the destination key
already exists, true otherwise. -/
def Db.renamenxFlag (db : Db) (src dst : String) : Bool :=
  if dst ∈ db.existingKeys then false else true

/-- Local state of a handle, from RedisValue.__init__: a store-connection
reference (opaque identifier) and a mutable key string. -/
structure RedisHandle where
  db : Nat
  key : String
deriving DecidableEq

/-- RedisValue.base_commands, in source order. -/
def base_commands : List String :=
  ["exists", "delete", "type", "rename", "renamenx"]

/-- RedisString.commands, in source order. -/
def RedisString.commands : List String :=
  ["set", "get", "getset", "setnx", "setex", "incr", "incrby", "decr",
   "decrby", "append", "substr"]

/-- RedisList.commands, in source order. -/
def RedisList.commands : List String :=
  ["rpush", "lpush", "llen", "lrange", "ltrim", "lindex", "lset", "lrem",
   "lpop", "rpop"]

/-- RedisSet.commands, in source order. -/
def RedisSet.commands : List String :=
  ["sadd", "srem", "spop", "scard", "sismember", "smembers", "srandmembers"]

/-- RedisValue.__getattr__: when attr is among the type-specific commands or
the base commands, return the curried forwarder for that command (represented
here by the command name); otherwise raise AttributeError. -/
def RedisValue.getattr (cls : String) (commands : List String) (attr : String) :
    Except PyErr String :=
  if attr ∈ commands ∨ attr ∈ base_commands then .ok attr
  else .error (.attributeError cls attr)

/-- RedisValue.rename: success = db.rename(key, new); key is then assigned new
unconditionally, and the flag is returned. -/
def RedisValue.rename (db : Db) (h : RedisHandle) (new : String) :
    Bool × RedisHandle :=
  let success := db.renameFlag h.key new
  (success, { h with key := new })

/-- RedisValue.renamenx: success = db.renamenx(key, new); the key is assigned
new only when the flag is true, and the flag is returned. -/
def RedisValue.renamenx (db : Db) (h : RedisHandle) (new : String) :
    Bool × RedisHandle :=
  let success := db.renamenxFlag h.key new
  if success then (success, { h with key := new }) else (success, h)

/-- Result of a RedisString attribute lookup: either a curried remote command,
or a native string attribute taken from the fetched value. -/
inductive StrAttr where
  | remote (cmd : String)
  | native (fetchedValue : String) (attr : String)
deriving DecidableEq

/-- RedisString.__getattr__: first try the RedisValue lookup; on
AttributeError, when the native str type has the attribute, delegate to the
fetched current value (str(self) = self.get()); otherwise re-raise. -/
def RedisString.getattr (hasAttrStr : String → Bool) (fetched : String)
    (attr : String) : Except PyErr StrAttr :=
  match RedisValue.getattr "RedisString" RedisString.commands attr with
  | .ok cmd => .ok (.remote cmd)
  | .error e => if hasAttrStr attr then .ok (.native fetched attr) else .error e

/-- Redis index normalisation: negative indices count from the end of the
list. -/
def redisIndex (n : Int) (i : Int) : Int :=
  if i < 0 then i + n else i

/-- LRANGE semantics of the remote store (inclusive on both endpoints,
negative indices relative to the end, out-of-range indices clamped, empty
result when the effective start exceeds the effective stop). -/
def lrange {α : Type} (L : List α) (start stop : Int) : List α :=
  let s := max (redisIndex L.length start) 0
  let e := min (redisIndex L.length stop) ((L.length : Int) - 1)
  if s ≤ e then (L.take (e.toNat + 1)).drop s.toNat else []

/-- RedisList.__getitem__ on a slice, parametric in the remote fetch used for
lrange so that store contact is observable: a present non-unit step raises
IndexError; a missing start defaults to 0 and a missing stop to -1; a positive
stop is decremented (Redis includes the rightmost item); when start equals the
translated stop the empty list is returned without calling the store. -/
def RedisList.getitemSlice {α : Type} (fetch : Int → Int → List α)
    (start stop step : Option Int) : Except PyErr (List α) :=
  if step ≠ none ∧ step ≠ some 1 then .error .indexError
  else
    let s := start.getD 0
    let e0 := stop.getD (-1)
    let e := if e0 > 0 then e0 - 1 else e0
    if s = e then .ok []
    else .ok (fetch s e)

/-- RedisList.__iter__, flattened: starting from offset left, while left is
below the list length fetch lrange(left, left + bufsize - 1) with bufsize = 20
and continue at left + bufsize. -/
def RedisList.iterItems {α : Type} (L : List α) (left : Nat) : List α :=
  if h : left < L.length then
    lrange L left ((left : Int) + 20 - 1) ++ RedisList.iterItems L (left + 20)
  else []
termination_by L.length - left
decreasing_by omega

/-- Modelled from the spec: the host language (Python) native slice semantics
for unit step with optional bounds inside the list length, the comparison
baseline the spec states for indexed get. -/
def pythonSlice {α : Type} (L : List α) (start stop : Option Nat) : List α :=
  (L.take (stop.getD L.length)).drop (start.getD 0)

/-- SREM semantics of the remote store on the set stored at the handle key:
report whether the element was present and remove it if so. -/
def srem (members : List String) (v : String) : Bool × List String :=
  if v ∈ members then (true, members.erase v) else (false, members)

/-- SCARD semantics of the remote store: cardinality of the stored set. -/
def scard (members : List String) : Nat := members.length

/-- RedisSet.remove: call srem; when the remote reports the element was not
present, raise KeyError(value); otherwise succeed with the new remote state. -/
def RedisSet.remove (members : List String) (v : String) :
    Except PyErr (List String) :=
  let r := srem members v
  if r.1 = false then .error (.keyError v) else .ok r.2

/-- Argument to a RedisSet algebra operation: another RedisSet handle (with
its key and the members stored remotely under it), or a plain local
collection. -/
inductive SetArg where
  | handle (key : String) (members : List String)
  | localColl (members : List String)

/-- Native set union on the list representation of sets. -/
def listUnion (a b : List String) : List String :=
  a ++ b.filter (fun x => decide (x ∉ a))

/-- Native set intersection on the list representation of sets. -/
def listInter (a b : List String) : List String :=
  a.filter (fun x => decide (x ∈ b))

/-- Native set difference on the list representation of sets. -/
def listDiff (a b : List String) : List String :=
  a.filter (fun x => decide (x ∉ b))

/-- RedisSet.union: against another handle, self.sunion(other.key) resolves
through RedisValue.__getattr__ (RedisSet defines no sunion method); were the
lookup to succeed the remote would compute the two-key union. Against a local
collection, self.smembers().union(other) computes the native union over the
fetched members. -/
def RedisSet.union (selfMembers : List String) (other : SetArg) :
    Except PyErr (List String) :=
  match other with
  | .handle _ otherMembers =>
    match RedisValue.getattr "RedisSet" RedisSet.commands "sunion" with
    | .ok _ => .ok (listUnion selfMembers otherMembers)
    | .error e => .error e
  | .localColl s => .ok (listUnion selfMembers s)

/-- RedisSet.intersection: same shape as union, through self.sinter. -/
def RedisSet.intersection (selfMembers : List String) (other : SetArg) :
    Except PyErr (List String) :=
  match other with
  | .handle _ otherMembers =>
    match RedisValue.getattr "RedisSet" RedisSet.commands "sinter" with
    | .ok _ => .ok (listInter selfMembers otherMembers)
    | .error e => .error e
  | .localColl s => .ok (listInter selfMembers s)

/-- RedisSet.difference: same shape as union, through self.sdiff. -/
def RedisSet.difference (selfMembers : List String) (other : SetArg) :
    Except PyErr (List String) :=
  match other with
  | .handle _ otherMembers =>
    match RedisValue.getattr "RedisSet" RedisSet.commands "sdiff" with
    | .ok _ => .ok (listDiff selfMembers otherMembers)
    | .error e => .error e
  | .localColl s => .ok (listDiff selfMembers s)

/-- Public operations of the wrapper, one constructor per method of the
source classes (curriedCmd covers every command forwarded through _curry). -/
inductive PublicOp where
  | curriedCmd (cmd : String) (args : List String)
  | strStringify
  | strLength
  | listLength
  | listIndex (i : Int)
  | listSlice (start stop step : Option Int)
  | listSetIndex (i : Int) (v : String)
  | listIterate
  | listAppend (v : String)
  | listExtend (vs : List String)
  | setContains (v : String)
  | setCard
  | setAdd (v : String)
  | setPop
  | setRemove (v : String)
  | setUnion (other : SetArg)
  | setIntersection (other : SetArg)
  | setDifference (other : SetArg)
  | rename (new : String)
  | renamenx (new : String)

/-- Effect of each public operation on the local handle state, traced from the
source: only rename and renamenx assign self.key, and no method ever assigns
self.db; every other method only issues remote calls and post-processes their
results. -/
def PublicOp.applyLocal (db : Db) (op : PublicOp) (h : RedisHandle) :
    RedisHandle :=
  match op with
  | .rename new => (RedisValue.rename db h new).2
  | .renamenx new => (RedisValue.renamenx db h new).2
  | .curriedCmd _ _ => h
  | .strStringify => h
  | .strLength => h
  | .listLength => h
  | .listIndex _ => h
  | .listSlice _ _ _ => h
  | .listSetIndex _ _ => h
  | .listIterate => h
  | .listAppend _ => h
  | .listExtend _ => h
  | .setContains _ => h
  | .setCard => h
  | .setAdd _ => h
  | .setPop => h
  | .setRemove _ => h
  | .setUnion _ => h
  | .setIntersection _ => h
  | .setDifference _ => h

/-- Remote store whose RENAME flag always reports failure. -/
def dbAlwaysFail : Db := { renameFlag := fun _ _ => false, existingKeys := [] }

/-- Remote store in which only the key b exists. -/
def dbWithB : Db := { renameFlag := fun _ _ => true, existingKeys := ["b"] }

/-- Remote store with no existing keys and an always-true RENAME flag. -/
def db0 : Db := { renameFlag := fun _ _ => true, existingKeys := [] }

/-- Helper: lrange with nonnegative bounds is take then drop. -/
theorem lrange_nonneg {α : Type} (L : List α) (a b : Nat) :
    lrange L (a : Int) (b : Int) = (L.take (b + 1)).drop a := by
  simp only [lrange, redisIndex]
  rw [if_neg (by omega : ¬ ((a : Int) < 0)), if_neg (by omega : ¬ ((b : Int) < 0))]
  rw [max_eq_left (by omega : (0 : Int) ≤ (a : Int))]
  by_cases hle : (a : Int) ≤ min (b : Int) ((L.length : Int) - 1)
  · rw [if_pos hle]
    have hb : (a : Int) ≤ (L.length : Int) - 1 := le_trans hle (min_le_right _ _)
    have he : (min (b : Int) ((L.length : Int) - 1)).toNat + 1 = min (b + 1) L.length := by
      rcases le_total (b : Int) ((L.length : Int) - 1) with hc | hc
      · rw [min_eq_left hc]; omega
      · rw [min_eq_right hc]; omega
    rw [he, ← List.take_take, List.take_length]
    congr 1
  · rw [if_neg hle]
    rw [not_le] at hle
    rcases min_lt_iff.mp hle with hc | hc
    · symm
      apply List.drop_eq_nil_of_le
      rw [List.length_take]
      omega
    · symm
      apply List.drop_eq_nil_of_le
      rw [List.length_take]
      omega

/-- Helper: the full-range fetch lrange(0, -1) returns the whole list. -/
theorem lrange_full {α : Type} (L : List α) : lrange L 0 (-1) = L := by
  simp only [lrange, redisIndex]
  rw [if_neg (by omega : ¬ ((0 : Int) < 0)), if_pos (by omega : (-1 : Int) < 0)]
  rw [max_eq_left (le_refl (0 : Int))]
  have hmin : min ((-1 : Int) + (L.length : Int)) ((L.length : Int) - 1) =
      (L.length : Int) - 1 := by
    rw [min_eq_left (by omega)]
    omega
  rw [hmin]
  by_cases hn : 0 < L.length
  · rw [if_pos (by omega)]
    have h1 : ((L.length : Int) - 1).toNat + 1 = L.length := by omega
    rw [h1]
    simp [List.take_length]
  · rw [if_neg (by omega)]
    symm
    rw [← List.length_eq_zero]
    omega

/-- Helper: one iteration window is take 20 of the remaining suffix. -/
theorem lrange_window {α : Type} (L : List α) (left : Nat) :
    lrange L (left : Int) ((left : Int) + 20 - 1) = (L.drop left).take 20 := by
  have hcast : ((left : Int) + 20 - 1) = (((left + 19 : Nat) : Int)) := by push_cast; ring
  rw [hcast, lrange_nonneg, List.drop_take]
  congr 1
  omega

/-- Helper: chunked iteration starting at offset left produces the suffix of
the list from that offset. -/
theorem RedisList.iterItems_eq_drop {α : Type} (L : List α) (left : Nat) :
    RedisList.iterItems L left = L.drop left := by
  unfold RedisList.iterItems
  by_cases h : left < L.length
  · rw [dif_pos h]
    rw [lrange_window, RedisList.iterItems_eq_drop L (left + 20)]
    rw [← List.drop_drop]
    exact List.take_append_drop 20 (L.drop left)
  · rw [dif_neg h]
    symm
    exact List.drop_eq_nil_of_le (by omega)
termination_by L.length - left
decreasing_by omega

/-- C4: for every list, iterating the list handle with chunked fetches of
window size 20 yields exactly the same elements, in the same order, as the
single full-range fetch lrange(0, -1) of the whole list; in particular this
holds at every length N, covering N in {0, 1, 19, 20, 21, 41}. -/
theorem c4_iter_eq_full_fetch {α : Type} (L : List α) :
    RedisList.iterItems L 0 = lrange L 0 (-1) := by
  rw [RedisList.iterItems_eq_drop, lrange_full, List.drop_zero]

/-- C1 counterexample: with a remote whose rename reports failure (flag
false), rename on the handle with key a to key b returns the failure flag yet
still changes the local key to b, so the key is not left unchanged. -/
theorem c1_rename_counterexample :
    (RedisValue.rename dbAlwaysFail ⟨0, "a"⟩ "b").1 = false ∧
    (RedisValue.rename dbAlwaysFail ⟨0, "a"⟩ "b").2.key = "b" ∧
    "b" ≠ "a" :=
  ⟨rfl, rfl, by decide⟩

/-- C1 (amended): rename(new) returns the remote flag unchanged and updates
the local key to new unconditionally, on success and on failure alike, while
leaving the store-connection reference unchanged. -/
theorem c1_rename_amended (db : Db) (h : RedisHandle) (new : String) :
    (RedisValue.rename db h new).1 = db.renameFlag h.key new ∧
    (RedisValue.rename db h new).2.key = new ∧
    (RedisValue.rename db h new).2.db = h.db :=
  ⟨rfl, rfl, rfl⟩

/-- C5: renamenx(new) to a destination key that already exists returns the
failure flag and leaves the handle local key unchanged; to a destination key
that does not exist it returns the success flag and updates the local key to
new. -/
theorem c5_renamenx (db : Db) (h : RedisHandle) (new : String) :
    (new ∈ db.existingKeys → RedisValue.renamenx db h new = (false, h)) ∧
    (new ∉ db.existingKeys →
      (RedisValue.renamenx db h new).1 = true ∧
      (RedisValue.renamenx db h new).2.key = new) := by
  constructor
  · intro hmem
    simp [RedisValue.renamenx, Db.renamenxFlag, hmem]
  · intro hmem
    simp [RedisValue.renamenx, Db.renamenxFlag, hmem]

/-- C5 witness: in a store where only key b exists, renamenx from a to b fails
and keeps the key, while renamenx from a to c succeeds and updates the key. -/
theorem c5_renamenx_witness :
    RedisValue.renamenx dbWithB ⟨0, "a"⟩ "b" = (false, ⟨0, "a"⟩) ∧
    (RedisValue.renamenx dbWithB ⟨0, "a"⟩ "c").1 = true ∧
    (RedisValue.renamenx dbWithB ⟨0, "a"⟩ "c").2.key = "c" :=
  ⟨(c5_renamenx dbWithB ⟨0, "a"⟩ "b").1 (by decide),
   (c5_renamenx dbWithB ⟨0, "a"⟩ "c").2 (by decide)⟩

/-- C2 (code bug): on the two-element list, the slice request [1, 2) with
absent step returns the empty list (after the inclusive translation the stop
becomes 1 and the start == stop short-circuit fires), whereas the native
Python slice semantics return the one-element list containing the second
element. -/
theorem c2_slice_translation_bug :
    RedisList.getitemSlice (lrange ["a", "b"]) (some 1) (some 2) none =
      .ok ([] : List String) ∧
    pythonSlice ["a", "b"] (some 1) (some 2) = ["b"] :=
  ⟨rfl, rfl⟩

/-- C6: a slice request with a present step different from 1 fails with
IndexError, and the result does not depend on the remote fetch function, so
the store is never contacted. -/
theorem c6_nonunit_step (f g : Int → Int → List String) (a b : Option Int)
    (k : Int) (hk : k ≠ 1) :
    RedisList.getitemSlice f a b (some k) = .error .indexError ∧
    RedisList.getitemSlice f a b (some k) =
      RedisList.getitemSlice g a b (some k) := by
  have hcond : (some k ≠ (none : Option Int) ∧ some k ≠ some 1) :=
    ⟨by simp, by simp [hk]⟩
  unfold RedisList.getitemSlice
  rw [if_pos hcond, if_pos hcond]
  exact ⟨rfl, rfl⟩

/-- C6 witness: with step 2 and two different fetch functions, the slice
request fails with IndexError and ignores the fetch function. -/
theorem c6_nonunit_step_witness :
    RedisList.getitemSlice (fun _ _ => ([] : List String)) none none (some 2) =
      .error .indexError ∧
    RedisList.getitemSlice (fun _ _ => ([] : List String)) none none (some 2) =
      RedisList.getitemSlice (fun _ _ => ["x"]) none none (some 2) :=
  c6_nonunit_step (fun _ _ => ([] : List String)) (fun _ _ => ["x"]) none none 2
    (by decide)

/-- C3 (code bug): between two RedisSet handles, union, intersection and
difference raise AttributeError, because sunion, sinter and sdiff are missing
from RedisSet.commands and base_commands, so the dispatch in
RedisValue.__getattr__ rejects them before any remote call; against a local
collection the native algebra is computed as claimed. -/
theorem c3_setops_attribute_error :
    RedisSet.union ["a"] (.handle "k2" ["b"]) =
      .error (.attributeError "RedisSet" "sunion") ∧
    RedisSet.intersection ["a"] (.handle "k2" ["b"]) =
      .error (.attributeError "RedisSet" "sinter") ∧
    RedisSet.difference ["a"] (.handle "k2" ["b"]) =
      .error (.attributeError "RedisSet" "sdiff") ∧
    RedisSet.union ["a"] (.localColl ["b"]) = .ok ["a", "b"] :=
  ⟨rfl, rfl, rfl, rfl⟩

/-- C7: remove(value) raises KeyError when the remote reports the element
absent, and on a present element succeeds with the element erased remotely and
the remote cardinality decreased by exactly one. -/
theorem c7_set_remove (members : List String) (v : String) :
    (v ∉ members → RedisSet.remove members v = .error (.keyError v)) ∧
    (v ∈ members →
      RedisSet.remove members v = .ok (members.erase v) ∧
      scard (members.erase v) + 1 = scard members) := by
  constructor
  · intro hv
    simp [RedisSet.remove, srem, hv]
  · intro hv
    refine ⟨by simp [RedisSet.remove, srem, hv], ?_⟩
    simp only [scard]
    have h1 := List.length_erase_of_mem hv
    have h2 : members ≠ [] := List.ne_nil_of_mem hv
    have h3 : 0 < members.length := List.length_pos.mpr h2
    omega

/-- C7 witness: removing z from the two-element set fails with KeyError, and
removing x succeeds and decreases the cardinality from 2 to 1. -/
theorem c7_set_remove_witness :
    RedisSet.remove ["x", "y"] "z" = .error (.keyError "z") ∧
    (RedisSet.remove ["x", "y"] "x" = .ok (["x", "y"].erase "x") ∧
     scard (["x", "y"].erase "x") + 1 = scard ["x", "y"]) :=
  ⟨(c7_set_remove ["x", "y"] "z").1 (by decide),
   (c7_set_remove ["x", "y"] "x").2 (by decide)⟩

/-- C8: for every handle type, an attribute outside the type-specific commands
and the base commands is rejected by the dynamic dispatch with AttributeError;
for string handles the error additionally requires the native str type not to
define the attribute. -/
theorem c8_unknown_attr :
    (∀ (cls : String) (commands : List String) (attr : String),
      attr ∉ commands → attr ∉ base_commands →
      RedisValue.getattr cls commands attr = .error (.attributeError cls attr)) ∧
    (∀ (hasAttrStr : String → Bool) (fetched attr : String),
      attr ∉ RedisString.commands → attr ∉ base_commands →
      hasAttrStr attr = false →
      RedisString.getattr hasAttrStr fetched attr =
        .error (.attributeError "RedisString" attr)) := by
  constructor
  · intro cls commands attr h1 h2
    simp [RedisValue.getattr, h1, h2]
  · intro has fetched attr h1 h2 h3
    simp [RedisString.getattr, RedisValue.getattr, h1, h2, h3]

/-- C8 witness: the attribute frobnicate is rejected on a list handle, and on
a string handle when the native str type lacks it as well. -/
theorem c8_unknown_attr_witness :
    RedisValue.getattr "RedisList" RedisList.commands "frobnicate" =
      .error (.attributeError "RedisList" "frobnicate") ∧
    RedisString.getattr (fun _ => false) "spam" "frobnicate" =
      .error (.attributeError "RedisString" "frobnicate") :=
  ⟨c8_unknown_attr.1 "RedisList" RedisList.commands "frobnicate" (by decide)
     (by decide),
   c8_unknown_attr.2 (fun _ => false) "spam" "frobnicate" (by decide)
     (by decide) rfl⟩

/-- C9: on a string handle, an attribute that is not a declared remote command
is delegated to the fetched current value when the native str type defines it,
and otherwise the AttributeError propagates. -/
theorem c9_string_fallback (hasAttrStr : String → Bool) (fetched attr : String)
    (h1 : attr ∉ RedisString.commands) (h2 : attr ∉ base_commands) :
    (hasAttrStr attr = true →
      RedisString.getattr hasAttrStr fetched attr = .ok (.native fetched attr)) ∧
    (hasAttrStr attr = false →
      RedisString.getattr hasAttrStr fetched attr =
        .error (.attributeError "RedisString" attr)) := by
  constructor <;> intro h3 <;>
    simp [RedisString.getattr, RedisValue.getattr, h1, h2, h3]

/-- C9 witness: with a native str surface containing exactly endswith, the
attribute endswith on a string handle holding spam delegates to the fetched
value, while frobnicate raises AttributeError. -/
theorem c9_string_fallback_witness :
    RedisString.getattr (fun a => a == "endswith") "spam" "endswith" =
      .ok (.native "spam" "endswith") ∧
    RedisString.getattr (fun a => a == "endswith") "spam" "frobnicate" =
      .error (.attributeError "RedisString" "frobnicate") :=
  ⟨(c9_string_fallback (fun a => a == "endswith") "spam" "endswith" (by decide)
      (by decide)).1 (by decide),
   (c9_string_fallback (fun a => a == "endswith") "spam" "frobnicate"
      (by decide) (by decide)).2 (by decide)⟩

/-- C10: every public operation other than rename and renamenx leaves the
local handle state, the key field and the store-connection reference,
unchanged. -/
theorem c10_frame (db : Db) (op : PublicOp) (h : RedisHandle)
    (hr : ∀ new, op ≠ .rename new) (hrn : ∀ new, op ≠ .renamenx new) :
    PublicOp.applyLocal db op h = h := by
  cases op
  case rename new => exact absurd rfl (hr new)
  case renamenx new => exact absurd rfl (hrn new)
  all_goals rfl

/-- C10 witness: the set add operation leaves the handle unchanged. -/
theorem c10_frame_witness :
    PublicOp.applyLocal db0 (.setAdd "x") ⟨0, "k"⟩ = ⟨0, "k"⟩ :=
  c10_frame db0 (.setAdd "x") ⟨0, "k"⟩
    (fun _ hne => PublicOp.noConfusion hne)
    (fun _ hne => PublicOp.noConfusion hne)
